import Mathlib

/-!
Verification development for the habr article scraper (`src/main.py`).

The Python program is shallowly embedded: HTML documents become a `Node`
tree, the two extraction routines (`parse_main_page`, `get_article_data`)
become pure functions over that tree, the persistent store becomes an
optional file-content string together with JSON load/dump oracles, and the
driver loop (`main`) becomes a pure function that also produces the trace
of its observable events (fetches, skips, sleeps, saves).
-/

namespace Habr

/-- Python whitespace characters, as used by `str.strip()` (ASCII subset). -/
def isSpaceChar (c : Char) : Bool :=
  c == ' ' || c == '\t' || c == '\n' || c == '\r' || c == '\x0b' || c == '\x0c'

/-- Strip leading and trailing whitespace from a character list. -/
def stripList (l : List Char) : List Char :=
  ((l.dropWhile isSpaceChar).reverse.dropWhile isSpaceChar).reverse

/-- Model of Python `s.strip()`. -/
def pyStrip (s : String) : String := ⟨stripList s.data⟩

/-- Substring occurrence test on character lists. -/
def hasSubList (sub : List Char) : List Char → Bool
  | [] => sub.isEmpty
  | c :: t => sub.isPrefixOf (c :: t) || hasSubList sub t

/-- Model of Python `sub in s` (substring containment). -/
def pyContains (s sub : String) : Bool := hasSubList sub.data s.data

/-- Model of Python `s.startswith(p)`. -/
def pyStartsWith (s p : String) : Bool := p.data.isPrefixOf s.data

/-- Split a character list on whitespace, dropping empty pieces
(how an HTML parser tokenizes the `class` attribute). -/
def splitWSGo (acc : List Char) : List Char → List String
  | [] => if acc.isEmpty then [] else [⟨acc.reverse⟩]
  | c :: t =>
    if isSpaceChar c then
      if acc.isEmpty then splitWSGo [] t else String.mk acc.reverse :: splitWSGo [] t
    else splitWSGo (c :: acc) t

/-- The whitespace-separated class tokens of a raw `class` attribute value. -/
def classTokens (s : String) : List String := splitWSGo [] s.data

/-- A parsed HTML document: element nodes with a tag name, attributes and
children, and text nodes. This is the tree both `lxml.html.fromstring` and
`BeautifulSoup` expose to the two extraction routines. -/
inductive Node where
  | elem (tag : String) (attrs : List (String × String)) (children : List Node)
  | text (s : String)

/-- Tag name of a node (text nodes get the empty name). -/
def Node.tagName : Node → String
  | .elem t _ _ => t
  | .text _ => ""

/-- Children of a node. -/
def Node.childList : Node → List Node
  | .elem _ _ cs => cs
  | .text _ => []

/-- Attribute lookup, `none` when absent (Python `tag.get(key)`). -/
def getAttr (n : Node) (key : String) : Option String :=
  match n with
  | .elem _ attrs _ => (attrs.find? (fun p => p.1 == key)).map Prod.snd
  | .text _ => none

/-- Whether a node is an element. -/
def isElem : Node → Bool
  | .elem _ _ _ => true
  | .text _ => false

mutual
/-- All nodes of the subtree rooted at `n`, in document (pre-)order. -/
def nodeList : Node → List Node
  | .text s => [.text s]
  | .elem t a cs => .elem t a cs :: nodesList cs
/-- All nodes of the subtrees of a child list, in document order. -/
def nodesList : List Node → List Node
  | [] => []
  | c :: cs => nodeList c ++ nodesList cs
end

/-- The string of a text node. -/
def textOf : Node → Option String
  | .text s => some s
  | .elem _ _ _ => none

/-- lxml `text_content()`: all text of the subtree, concatenated in
document order. -/
def textContent (n : Node) : String := String.join ((nodeList n).filterMap textOf)

/-- bs4 `get_text(strip=True)`: each descendant text node stripped, then
concatenated (empty pieces contribute nothing). -/
def getTextStrip (n : Node) : String :=
  String.join (((nodeList n).filterMap textOf).map pyStrip)

/-- bs4 `select`: all elements of the document matching a predicate, in
document order. -/
def selectAll (p : Node → Bool) (root : Node) : List Node :=
  (nodeList root).filter (fun n => isElem n && p n)

/-- bs4 `select_one`: first matching element in document order, if any. -/
def select_one (p : Node → Bool) (root : Node) : Option Node :=
  (selectAll p root).head?

/-- bs4 `find_all(["p", "li"])` generalized: all strict-descendant elements
with one of the given tag names, in document order. -/
def find_all (tags : List String) (n : Node) : List Node :=
  (nodesList n.childList).filter (fun c => isElem c && tags.contains c.tagName)

/-- CSS `div.article-formatted-body`: a div whose class-token list contains
the marker token. -/
def isBodyDiv (n : Node) : Bool :=
  n.tagName == "div" && (classTokens ((getAttr n "class").getD "")).contains "article-formatted-body"

/-- CSS `span[data-test-id=votes-meter-counter]` (primary likes selector). -/
def isVotesCounter (n : Node) : Bool :=
  n.tagName == "span" && (getAttr n "data-test-id").getD "" == "votes-meter-counter"

/-- CSS `span[class*=vote]` (fallback likes selector): substring match on
the class attribute value. -/
def isVoteClassSpan (n : Node) : Bool :=
  n.tagName == "span" && pyContains ((getAttr n "class").getD "") "vote"

/-- CSS `span[data-test-id=comments-counter]` (primary comments selector). -/
def isCommentsCounter (n : Node) : Bool :=
  n.tagName == "span" && (getAttr n "data-test-id").getD "" == "comments-counter"

/-- CSS `span[class*=comment]` (fallback comments selector). -/
def isCommentClassSpan (n : Node) : Bool :=
  n.tagName == "span" && pyContains ((getAttr n "class").getD "") "comment"

/-- The result of `get_article_data`. -/
structure ExtraData where
  text : String
  likes : String
  comments : String
deriving DecidableEq

/-- The inner loop of the text accumulation in `get_article_data`: for each
`p`/`li` element, append its stripped text to the buffer when non-empty. -/
def paragraphLoop (acc : List String) : List Node → List String
  | [] => acc
  | p :: rest =>
    let t := getTextStrip p
    if t = "" then paragraphLoop acc rest else paragraphLoop (acc ++ [t]) rest

/-- The outer loop of the text accumulation in `get_article_data`: run the
inner loop over the `p`/`li` descendants of each body div in turn. -/
def bodyLoop (acc : List String) : List Node → List String
  | [] => acc
  | d :: rest => bodyLoop (paragraphLoop acc (find_all ["p", "li"] d)) rest

/-- The nested accumulation loop of `get_article_data`, started on an empty
buffer. -/
def collectParagraphs (body_divs : List Node) : List String :=
  bodyLoop [] body_divs

/-- The Python idiom `select_one(primary) or select_one(fallback)`:
a bs4 `Tag` is always truthy, so the fallback fires exactly when the
primary selector matched nothing. -/
def firstMatch (primary fallback : Node → Bool) (soup : Node) : Option Node :=
  match select_one primary soup with
  | some t => some t
  | none => select_one fallback soup

/-- Model of `get_article_data(article_html)` from `src/main.py`: article text from
the body divs, likes and comments via the two-tier selector fallback with
default string zero. -/
def get_article_data (soup : Node) : ExtraData :=
  let body_divs := selectAll isBodyDiv soup
  let text_full := String.intercalate "\n" (collectParagraphs body_divs)
  let likes_tag := firstMatch isVotesCounter isVoteClassSpan soup
  let likes := match likes_tag with | some t => getTextStrip t | none => "0"
  let comments_tag := firstMatch isCommentsCounter isCommentClassSpan soup
  let comments := match comments_tag with | some t => getTextStrip t | none => "0"
  { text := text_full, likes := likes, comments := comments }

/-- A (title, url) pair from the listing page. -/
structure ArticleStub where
  title : String
  url : String
deriving DecidableEq

mutual
/-- XPath `//article//h2/a` on a subtree: `inArt` records whether an
ancestor is an `article`, `underH2` whether the parent is an `h2` lying
inside an `article`. Matches are emitted in document order. -/
def anchorsNode (inArt underH2 : Bool) : Node → List Node
  | .text _ => []
  | .elem t attrs cs =>
    (if underH2 && t == "a" then [Node.elem t attrs cs] else []) ++
      anchorsNodes (inArt || t == "article") (t == "h2" && inArt) cs
/-- The function `anchorsNode` mapped over a child list. -/
def anchorsNodes (inArt underH2 : Bool) : List Node → List Node
  | [] => []
  | c :: cs => anchorsNode inArt underH2 c ++ anchorsNodes inArt underH2 cs
end

/-- XPath `//article//h2/a` over the whole document. -/
def xpathArticleH2Anchors (tree : Node) : List Node := anchorsNode false false tree

/-- The per-anchor body of the `parse_main_page` loop: stripped title,
href absolutized when site-relative, emitted only when both title and
(untrimmed) href are non-empty. -/
def stubOf (a : Node) : Option ArticleStub :=
  let title := pyStrip (textContent a)
  let href0 := (getAttr a "href").getD ""
  let href := if pyStartsWith href0 "/" then "https://habr.com" ++ href0 else href0
  if title ≠ "" ∧ href ≠ "" then some ⟨title, href⟩ else none

/-- The accumulation loop of `parse_main_page`: append the stub of each
anchor that yields one. -/
def stubLoop (results : List ArticleStub) : List Node → List ArticleStub
  | [] => results
  | a :: rest =>
    match stubOf a with
    | some s => stubLoop (results ++ [s]) rest
    | none => stubLoop results rest

/-- Model of `parse_main_page(page_html)` from `src/main.py`: the accumulation loop
over the anchors selected by `//article//h2/a`. -/
def parse_main_page (tree : Node) : List ArticleStub :=
  stubLoop [] (xpathArticleH2Anchors tree)

/-- A persisted article record (one JSON object of the store array). -/
structure ArticleRecord where
  title : String
  url : String
  text : String
  likes : String
  comments : String
deriving DecidableEq

/-- The observable events of one driver run, in order of occurrence. -/
inductive Event where
  | listingFetched
  | skipped (url : String)
  | fetched (url : String)
  | failed (url : String) (msg : String)
  | slept
  | saved
deriving DecidableEq

/-- Python slicing `l[:n]` for an arbitrary integer `n`: a negative bound
counts from the end. -/
def pyTake (n : Int) (l : List α) : List α :=
  if 0 ≤ n then l.take n.toNat else l.take (l.length - (-n).toNat)

/-- The candidate loop of `main`: a known URL is skipped (the `continue`
bypasses the sleep); otherwise the article is fetched — on success a record
is built, on failure the error is reported — and in either of those two
cases the fixed delay runs afterwards. -/
def processLoop (fetch : String → Except String Node) (existing_urls : List String) :
    List ArticleStub → List Event × List ArticleRecord
  | [] => ([], [])
  | art :: rest =>
    if art.url ∈ existing_urls then
      let r := processLoop fetch existing_urls rest
      (Event.skipped art.url :: r.1, r.2)
    else
      match fetch art.url with
      | .ok page =>
        let extra := get_article_data page
        let record : ArticleRecord :=
          ⟨art.title, art.url, extra.text, extra.likes, extra.comments⟩
        let r := processLoop fetch existing_urls rest
        (Event.fetched art.url :: Event.slept :: r.1, record :: r.2)
      | .error e =>
        let r := processLoop fetch existing_urls rest
        (Event.fetched art.url :: Event.failed art.url e :: Event.slept :: r.1, r.2)

/-- Model of `load_existing_data()`: empty list when the file is absent, otherwise
the JSON parse of its contents (which may raise, i.e. return an error). -/
def load_existing_data (file : Option String)
    (jsonLoad : String → Except String (List ArticleRecord)) :
    Except String (List ArticleRecord) :=
  match file with
  | some s => jsonLoad s
  | none => .ok []

/-- Model of `parse_main_page(main_html)[:limit]`: the candidates one run considers. -/
def consideredArticles (listing : Node) (limit : Int) : List ArticleStub :=
  pyTake limit (parse_main_page listing)

/-- The `new_articles` buffer as left by the candidate loop. -/
def newArticles (fetch : String → Except String Node) (existing_urls : List String)
    (arts : List ArticleStub) : List ArticleRecord :=
  (processLoop fetch existing_urls arts).2

/-- Outcome of one driver run: the event trace, the uncaught exception if
one aborted the run, and the final state of the store file. -/
structure MainResult where
  events : List Event
  err : Option String
  file : Option String
deriving DecidableEq

/-- Model of `main(limit)` from `src/main.py`. The network and JSON library
boundaries are oracles: `jsonLoad`/`jsonDump` model `json.load`/`json.dump`,
`listing` is the parsed listing page, `fetch` fetches and parses an article
page (an error models a raised exception). A load failure aborts the run
before any network activity. -/
def main (jsonLoad : String → Except String (List ArticleRecord))
    (jsonDump : List ArticleRecord → String)
    (listing : Node) (fetch : String → Except String Node)
    (file0 : Option String) (limit : Int := 5) : MainResult :=
  match load_existing_data file0 jsonLoad with
  | .error e => { events := [], err := some e, file := file0 }
  | .ok existing_data =>
    let existing_urls := existing_data.map ArticleRecord.url
    let articles := consideredArticles listing limit
    let r := processLoop fetch existing_urls articles
    if r.2 ≠ [] then
      { events := Event.listingFetched :: (r.1 ++ [Event.saved]),
        err := none,
        file := some (jsonDump (existing_data ++ r.2)) }
    else
      { events := Event.listingFetched :: r.1, err := none, file := file0 }

/-! ### Bridge lemmas: accumulation loops as list combinators -/

/-- The per-paragraph filter of the text accumulation as an Option map. -/
def nonEmptyStrip (p : Node) : Option String :=
  let t := getTextStrip p
  if t = "" then none else some t

theorem paragraphLoop_eq (acc : List String) (l : List Node) :
    paragraphLoop acc l = acc ++ l.filterMap nonEmptyStrip := by
  induction l generalizing acc with
  | nil => simp [paragraphLoop]
  | cons p rest ih =>
    by_cases ht : getTextStrip p = "" <;>
      simp [paragraphLoop, ht, nonEmptyStrip, List.filterMap_cons, ih]

theorem bodyLoop_eq (acc : List String) (divs : List Node) :
    bodyLoop acc divs
      = acc ++ divs.flatMap (fun d => (find_all ["p", "li"] d).filterMap nonEmptyStrip) := by
  induction divs generalizing acc with
  | nil => simp [bodyLoop]
  | cons d rest ih => simp [bodyLoop, paragraphLoop_eq, ih]

theorem collectParagraphs_eq (body_divs : List Node) :
    collectParagraphs body_divs
      = body_divs.flatMap (fun d => (find_all ["p", "li"] d).filterMap nonEmptyStrip) := by
  simp [collectParagraphs, bodyLoop_eq]

theorem stubLoop_eq (acc : List ArticleStub) (l : List Node) :
    stubLoop acc l = acc ++ l.filterMap stubOf := by
  induction l generalizing acc with
  | nil => simp [stubLoop]
  | cons a rest ih =>
    cases h : stubOf a <;> simp [stubLoop, h, List.filterMap_cons, ih]

theorem parse_main_page_eq_filterMap (tree : Node) :
    parse_main_page tree = (xpathArticleH2Anchors tree).filterMap stubOf := by
  simp [parse_main_page, stubLoop_eq]

/-! ### Driver-loop lemmas -/

/-- What one candidate contributes to the `new_articles` buffer: nothing
when its URL is known or its fetch fails, otherwise the assembled record. -/
def candRecord (fetch : String → Except String Node) (urls : List String)
    (a : ArticleStub) : Option ArticleRecord :=
  if a.url ∈ urls then none
  else
    match fetch a.url with
    | .ok page =>
      some ⟨a.title, a.url, (get_article_data page).text,
            (get_article_data page).likes, (get_article_data page).comments⟩
    | .error _ => none

theorem processLoop_snd (fetch : String → Except String Node) (urls : List String) :
    ∀ arts : List ArticleStub,
      (processLoop fetch urls arts).2 = arts.filterMap (candRecord fetch urls) := by
  intro arts
  induction arts with
  | nil => simp [processLoop]
  | cons art rest ih =>
    by_cases hk : art.url ∈ urls
    · simp [processLoop, hk, candRecord, List.filterMap_cons, ih]
    · cases hf : fetch art.url <;>
        simp [processLoop, hk, hf, candRecord, List.filterMap_cons, ih]

theorem skipped_mem_processLoop (fetch : String → Except String Node) (urls : List String) :
    ∀ (arts : List ArticleStub) (a : ArticleStub), a ∈ arts → a.url ∈ urls →
      Event.skipped a.url ∈ (processLoop fetch urls arts).1 := by
  intro arts
  induction arts with
  | nil => intro a ha; cases ha
  | cons art rest ih =>
    intro a ha hu
    rcases List.mem_cons.mp ha with rfl | hmem
    · simp [processLoop, hu]
    · by_cases hk : art.url ∈ urls
      · simp only [processLoop, if_pos hk, List.mem_cons]
        exact Or.inr (ih a hmem hu)
      · cases hf : fetch art.url <;>
          · simp only [processLoop, if_neg hk, hf, List.mem_cons]
            right; try right
            first
            | exact ih a hmem hu
            | (right; exact ih a hmem hu)

theorem fetched_mem_processLoop (fetch : String → Except String Node) (urls : List String) :
    ∀ (arts : List ArticleStub) (a : ArticleStub), a ∈ arts → a.url ∉ urls →
      Event.fetched a.url ∈ (processLoop fetch urls arts).1 := by
  intro arts
  induction arts with
  | nil => intro a ha; cases ha
  | cons art rest ih =>
    intro a ha hu
    rcases List.mem_cons.mp ha with rfl | hmem
    · by_cases hk : a.url ∈ urls
      · exact absurd hk hu
      · cases hf : fetch a.url <;> simp [processLoop, hk, hf]
    · by_cases hk : art.url ∈ urls
      · simp only [processLoop, if_pos hk, List.mem_cons]
        exact Or.inr (ih a hmem hu)
      · cases hf : fetch art.url <;>
          · simp only [processLoop, if_neg hk, hf, List.mem_cons]
            right; try right
            first
            | exact ih a hmem hu
            | (right; exact ih a hmem hu)

theorem fetched_not_mem_processLoop (fetch : String → Except String Node)
    (urls : List String) :
    ∀ (arts : List ArticleStub) (u : String), u ∈ urls →
      Event.fetched u ∉ (processLoop fetch urls arts).1 := by
  intro arts
  induction arts with
  | nil => intro u _ h; simp [processLoop] at h
  | cons art rest ih =>
    intro u hu h
    by_cases hk : art.url ∈ urls
    · rw [processLoop, if_pos hk] at h
      rcases List.mem_cons.mp h with heq | hmem
      · cases heq
      · exact ih u hu hmem
    · have hne : art.url ≠ u := fun he => hk (he ▸ hu)
      cases hf : fetch art.url <;> rw [processLoop, if_neg hk, hf] at h <;>
        simp only [List.mem_cons] at h
      · rcases h with heq | heq | heq | hmem
        · exact hne (by cases heq; rfl)
        · cases heq
        · cases heq
        · exact ih u hu hmem
      · rcases h with heq | heq | hmem
        · exact hne (by cases heq; rfl)
        · cases heq
        · exact ih u hu hmem

/-- Whether an event is the fixed 1-second delay. -/
def isSleepEvent : Event → Bool
  | .slept => true
  | _ => false

/-- How many times the fixed delay ran during a trace. -/
def sleepCount (evs : List Event) : Nat := (evs.filter isSleepEvent).length

theorem sleepCount_processLoop (fetch : String → Except String Node) (urls : List String) :
    ∀ arts : List ArticleStub,
      sleepCount (processLoop fetch urls arts).1
        = (arts.filter (fun a => !(decide (a.url ∈ urls)))).length := by
  intro arts
  induction arts with
  | nil => simp [processLoop, sleepCount]
  | cons art rest ih =>
    by_cases hk : art.url ∈ urls
    · simpa [processLoop, hk, sleepCount, isSleepEvent] using ih
    · cases hf : fetch art.url <;>
        simpa [processLoop, hk, hf, sleepCount, isSleepEvent] using ih

/-- The event `Event.saved` is emitted by `main` itself, never by the candidate loop. -/
theorem saved_not_mem_processLoop (fetch : String → Except String Node)
    (urls : List String) :
    ∀ arts : List ArticleStub, Event.saved ∉ (processLoop fetch urls arts).1 := by
  intro arts
  induction arts with
  | nil => simp [processLoop]
  | cons art rest ih =>
    by_cases hk : art.url ∈ urls
    · intro h
      rw [processLoop, if_pos hk] at h
      rcases List.mem_cons.mp h with heq | hmem
      · cases heq
      · exact ih hmem
    · intro h
      cases hf : fetch art.url <;> rw [processLoop, if_neg hk, hf] at h <;>
        simp only [List.mem_cons] at h
      · rcases h with heq | heq | heq | hmem
        · cases heq
        · cases heq
        · cases heq
        · exact ih hmem
      · rcases h with heq | heq | hmem
        · cases heq
        · cases heq
        · exact ih hmem

/-- Under a successful store load, `main` reduces to the candidate loop
followed by the conditional save. -/
theorem main_eq_of_ok (jsonLoad : String → Except String (List ArticleRecord))
    (jsonDump : List ArticleRecord → String) (listing : Node)
    (fetch : String → Except String Node) (file0 : Option String) (limit : Int)
    (existing : List ArticleRecord)
    (h : load_existing_data file0 jsonLoad = .ok existing) :
    main jsonLoad jsonDump listing fetch file0 limit =
      (let urls := existing.map ArticleRecord.url
       let r := processLoop fetch urls (consideredArticles listing limit)
       if r.2 ≠ [] then
         { events := Event.listingFetched :: (r.1 ++ [Event.saved]),
           err := none,
           file := some (jsonDump (existing ++ r.2)) }
       else
         { events := Event.listingFetched :: r.1, err := none, file := file0 }) := by
  unfold main
  rw [h]

/-- The event trace of a run whose store load succeeded. -/
theorem main_events_eq (jsonLoad : String → Except String (List ArticleRecord))
    (jsonDump : List ArticleRecord → String) (listing : Node)
    (fetch : String → Except String Node) (file0 : Option String) (limit : Int)
    (existing : List ArticleRecord)
    (h : load_existing_data file0 jsonLoad = .ok existing) :
    (main jsonLoad jsonDump listing fetch file0 limit).events
      = Event.listingFetched ::
          ((processLoop fetch (existing.map ArticleRecord.url)
              (consideredArticles listing limit)).1
            ++ (if (processLoop fetch (existing.map ArticleRecord.url)
                    (consideredArticles listing limit)).2 = []
                then [] else [Event.saved])) := by
  rw [main_eq_of_ok jsonLoad jsonDump listing fetch file0 limit existing h]
  by_cases h2 : (processLoop fetch (existing.map ArticleRecord.url)
      (consideredArticles listing limit)).2 = [] <;> simp [h2]

/-- The final file state of a run whose store load succeeded. -/
theorem main_file_eq (jsonLoad : String → Except String (List ArticleRecord))
    (jsonDump : List ArticleRecord → String) (listing : Node)
    (fetch : String → Except String Node) (file0 : Option String) (limit : Int)
    (existing : List ArticleRecord)
    (h : load_existing_data file0 jsonLoad = .ok existing) :
    (main jsonLoad jsonDump listing fetch file0 limit).file
      = (if (processLoop fetch (existing.map ArticleRecord.url)
              (consideredArticles listing limit)).2 = []
         then file0
         else some (jsonDump (existing ++
            (processLoop fetch (existing.map ArticleRecord.url)
                (consideredArticles listing limit)).2))) := by
  rw [main_eq_of_ok jsonLoad jsonDump listing fetch file0 limit existing h]
  by_cases h2 : (processLoop fetch (existing.map ArticleRecord.url)
      (consideredArticles listing limit)).2 = [] <;> simp [h2]

/-! ### Concrete inputs used by witnesses and counterexamples -/

/-- An article page whose only likes indicator is a primary counter span. -/
def likesSoup : Node :=
  .elem "html" [] [
    .elem "span" [("data-test-id", "votes-meter-counter")] [.text " 42 "]]

/-- An article page whose primary likes counter holds only whitespace. -/
def wsSoup : Node :=
  .elem "html" [] [
    .elem "span" [("data-test-id", "votes-meter-counter")] [.text "  "]]

/-- The anchor of `relTree`: a site-relative href. -/
def relAnchor : Node := .elem "a" [("href", "/ru/1")] [.text " T1 "]

/-- A listing with one article whose anchor href is site-relative. -/
def relTree : Node :=
  .elem "article" [] [.elem "h2" [] [relAnchor]]

/-- A listing with one titled article whose anchor href is a single space. -/
def wsHrefTree : Node :=
  .elem "article" [] [.elem "h2" [] [.elem "a" [("href", " ")] [.text "T"]]]

/-- A listing yielding exactly the stub (TA, A). -/
def listingA : Node :=
  .elem "article" [] [.elem "h2" [] [.elem "a" [("href", "A")] [.text "TA"]]]

/-- A listing yielding the stubs (TA, A) and (TB, B), in that order. -/
def listingAB : Node :=
  .elem "body" [] [
    .elem "article" [] [.elem "h2" [] [.elem "a" [("href", "A")] [.text "TA"]]],
    .elem "article" [] [.elem "h2" [] [.elem "a" [("href", "B")] [.text "TB"]]]]

/-- A listing yielding the stubs (TA, A), (TC, C), (TD, D), in that order. -/
def listingACD : Node :=
  .elem "body" [] [
    .elem "article" [] [.elem "h2" [] [.elem "a" [("href", "A")] [.text "TA"]]],
    .elem "article" [] [.elem "h2" [] [.elem "a" [("href", "C")] [.text "TC"]]],
    .elem "article" [] [.elem "h2" [] [.elem "a" [("href", "D")] [.text "TD"]]]]

/-- A store record for URL A. -/
def recA : ArticleRecord := ⟨"TA", "A", "", "0", "0"⟩

/-- A store record for URL B. -/
def recB : ArticleRecord := ⟨"TB", "B", "", "0", "0"⟩

/-- A JSON-load oracle: the content "db" parses to records A and B,
anything else is malformed. -/
def loadStoreAB : String → Except String (List ArticleRecord) :=
  fun s => if s = "db" then .ok [recA, recB] else .error "malformed"

/-- A JSON-load oracle: the content "db" parses to the single record A. -/
def loadStoreA : String → Except String (List ArticleRecord) :=
  fun s => if s = "db" then .ok [recA] else .error "malformed"

/-- A JSON-load oracle that always fails (malformed store). -/
def loadBad : String → Except String (List ArticleRecord) :=
  fun _ => .error "malformed"

/-- A JSON-dump oracle with an opaque fixed result. -/
def dumpStr : List ArticleRecord → String := fun _ => "dump"

/-- A fetch oracle: every article URL fetches an empty page. -/
def fetchEmptyPage : String → Except String Node :=
  fun _ => .ok (.elem "html" [] [])

/-- A fetch oracle: every article fetch raises a network error. -/
def fetchFail : String → Except String Node := fun _ => .error "net"

/-! ### Claims -/

/-- Claim C4: for every article markup, likes and comments extraction
follow the two-tier fallback exactly — the primary attribute selector
(votes-meter-counter / comments-counter) wins when it matches, otherwise a
span whose class contains "vote" (resp. "comment"), otherwise the literal
string "0"; a matching element contributes its trimmed text. -/
theorem counters_two_tier_fallback (soup : Node) :
    (∀ t, select_one isVotesCounter soup = some t →
        (get_article_data soup).likes = getTextStrip t) ∧
    (select_one isVotesCounter soup = none →
        ∀ t, select_one isVoteClassSpan soup = some t →
          (get_article_data soup).likes = getTextStrip t) ∧
    (select_one isVotesCounter soup = none → select_one isVoteClassSpan soup = none →
        (get_article_data soup).likes = "0") ∧
    (∀ t, select_one isCommentsCounter soup = some t →
        (get_article_data soup).comments = getTextStrip t) ∧
    (select_one isCommentsCounter soup = none →
        ∀ t, select_one isCommentClassSpan soup = some t →
          (get_article_data soup).comments = getTextStrip t) ∧
    (select_one isCommentsCounter soup = none → select_one isCommentClassSpan soup = none →
        (get_article_data soup).comments = "0") := by
  refine ⟨?_, ?_, ?_, ?_, ?_, ?_⟩
  · intro t ht; simp [get_article_data, firstMatch, ht]
  · intro hn t ht; simp [get_article_data, firstMatch, hn, ht]
  · intro hn1 hn2; simp [get_article_data, firstMatch, hn1, hn2]
  · intro t ht; simp [get_article_data, firstMatch, ht]
  · intro hn t ht; simp [get_article_data, firstMatch, hn, ht]
  · intro hn1 hn2; simp [get_article_data, firstMatch, hn1, hn2]

/-- Claim C4 witness: on a concrete page the primary likes counter text is
used and the comments default fires. -/
theorem counters_two_tier_fallback_witness :
    (get_article_data likesSoup).likes = "42" ∧
    (get_article_data likesSoup).comments = "0" := by
  have h := counters_two_tier_fallback likesSoup
  exact ⟨h.1 (.elem "span" [("data-test-id", "votes-meter-counter")] [.text " 42 "]) rfl,
         h.2.2.2.2.2 rfl rfl⟩

theorem filterMap_flatMap_comm {α β γ : Type} (l : List α) (f : α → List β)
    (g : β → Option γ) :
    (l.flatMap f).filterMap g = l.flatMap fun a => (f a).filterMap g := by
  induction l with
  | nil => simp
  | cons a t ih => simp [List.flatMap_cons, List.filterMap_append, ih]

/-- Claim C5: for every article markup, the extracted text equals the
trimmed visible texts of all `p`/`li` elements inside the matched body
containers — document order within each container, container order across
containers — with empty-after-trim elements omitted, joined by newlines. -/
theorem article_text_document_order (soup : Node) :
    (get_article_data soup).text
      = String.intercalate "\n"
          (((selectAll isBodyDiv soup).flatMap (fun d => find_all ["p", "li"] d)).filterMap
            nonEmptyStrip) := by
  simp only [get_article_data, collectParagraphs_eq, filterMap_flatMap_comm]

/-- Claim C10: when the likes (resp. comments) selectors do match an
element but its text strips to nothing, the extractor returns the empty
string; the default "0" arises only from the no-match case. -/
theorem empty_counter_text_not_defaulted (soup : Node) :
    (∀ t, firstMatch isVotesCounter isVoteClassSpan soup = some t →
        getTextStrip t = "" → (get_article_data soup).likes = "") ∧
    (firstMatch isVotesCounter isVoteClassSpan soup = none →
        (get_article_data soup).likes = "0") ∧
    (∀ t, firstMatch isCommentsCounter isCommentClassSpan soup = some t →
        getTextStrip t = "" → (get_article_data soup).comments = "") ∧
    (firstMatch isCommentsCounter isCommentClassSpan soup = none →
        (get_article_data soup).comments = "0") := by
  refine ⟨?_, ?_, ?_, ?_⟩
  · intro t ht he; simp [get_article_data, ht, he]
  · intro hn; simp [get_article_data, hn]
  · intro t ht he; simp [get_article_data, ht, he]
  · intro hn; simp [get_article_data, hn]

/-- Claim C10 witness: a whitespace-only primary likes counter yields the
empty string (not "0"), while the untouched comments side defaults to "0". -/
theorem empty_counter_text_not_defaulted_witness :
    (get_article_data wsSoup).likes = "" ∧ (get_article_data wsSoup).comments = "0" := by
  have h := empty_counter_text_not_defaulted wsSoup
  exact ⟨h.1 (.elem "span" [("data-test-id", "votes-meter-counter")] [.text "  "]) rfl rfl,
         h.2.2.2 rfl⟩

/-- What a successfully emitted stub looks like in terms of its anchor:
trimmed title, absolutized href, both emptiness checks passed. -/
theorem stubOf_char (a : Node) (s : ArticleStub) (h : stubOf a = some s) :
    s.title = pyStrip (textContent a) ∧
    s.url = (if pyStartsWith ((getAttr a "href").getD "") "/"
             then "https://habr.com" ++ (getAttr a "href").getD ""
             else (getAttr a "href").getD "") ∧
    s.title ≠ "" ∧ s.url ≠ "" := by
  simp only [stubOf] at h
  by_cases hsw : pyStartsWith ((getAttr a "href").getD "") "/"
  · rw [if_pos hsw] at h
    by_cases hc : pyStrip (textContent a) ≠ "" ∧
        "https://habr.com" ++ (getAttr a "href").getD "" ≠ ""
    · rw [if_pos hc] at h
      cases h
      exact ⟨rfl, (if_pos hsw).symm, hc.1, hc.2⟩
    · rw [if_neg hc] at h
      cases h
  · rw [if_neg hsw] at h
    by_cases hc : pyStrip (textContent a) ≠ "" ∧ (getAttr a "href").getD "" ≠ ""
    · rw [if_pos hc] at h
      cases h
      exact ⟨rfl, (if_neg hsw).symm, hc.1, hc.2⟩
    · rw [if_neg hc] at h
      cases h

/-- Claim C6: every anchor selected from the listing page that yields a
stub has its href prefixed with the fixed origin when it is site-relative
(begins with "/"), and passed through unchanged otherwise; the stub is
among the emitted ones. -/
theorem anchor_href_absolutized (tree : Node) (a : Node) (s : ArticleStub)
    (ha : a ∈ xpathArticleH2Anchors tree) (h : stubOf a = some s) :
    s ∈ parse_main_page tree ∧
    s.url = (if pyStartsWith ((getAttr a "href").getD "") "/"
             then "https://habr.com" ++ (getAttr a "href").getD ""
             else (getAttr a "href").getD "") := by
  constructor
  · rw [parse_main_page_eq_filterMap]
    exact List.mem_filterMap.mpr ⟨a, ha, h⟩
  · exact (stubOf_char a s h).2.1

/-- Claim C6 witness: the concrete relative href "/ru/1" is emitted as
"https://habr.com/ru/1". -/
theorem anchor_href_absolutized_witness :
    ({ title := "T1", url := "https://habr.com/ru/1" } : ArticleStub)
      ∈ parse_main_page relTree := by
  have hmem : relAnchor ∈ xpathArticleH2Anchors relTree := by
    rw [show xpathArticleH2Anchors relTree = [relAnchor] from rfl]
    exact List.mem_singleton.mpr rfl
  exact (anchor_href_absolutized relTree relAnchor
    { title := "T1", url := "https://habr.com/ru/1" } hmem rfl).1

/-- Claim C7 counterexample: the listing extractor does emit a stub whose
href is empty after trimming — a whitespace-only href is truthy in the
Python emptiness check, which does not trim it. -/
theorem whitespace_href_stub_emitted :
    parse_main_page wsHrefTree = [{ title := "T", url := " " }] ∧ pyStrip " " = "" :=
  ⟨rfl, rfl⟩

theorem dropWhile_eq_cons_head_false {α : Type} (p : α → Bool) :
    ∀ (l : List α) (h : α) (t : List α), l.dropWhile p = h :: t → p h = false := by
  intro l
  induction l with
  | nil => intro h t he; simp [List.dropWhile] at he
  | cons c cs ih =>
    intro h t he
    rw [List.dropWhile_cons] at he
    by_cases hc : p c = true
    · rw [if_pos hc] at he
      exact ih h t he
    · rw [if_neg hc] at he
      cases he
      cases hpc : p c with
      | false => rfl
      | true => exact absurd hpc hc

theorem rdropWhile_dropWhile_fix (p : Char → Bool) (m : List Char)
    (hmm : m.dropWhile p = m) :
    (List.rdropWhile p m).dropWhile p = List.rdropWhile p m := by
  rcases hcase : List.rdropWhile p m with _ | ⟨h, t⟩
  · simp
  · obtain ⟨r, hr⟩ := List.rdropWhile_prefix p m
    rw [hcase] at hr
    have hph : p h = false :=
      dropWhile_eq_cons_head_false p m h (t ++ r) (by rw [hmm, ← hr]; rfl)
    rw [List.dropWhile_cons, hph]
    simp

theorem stripList_idem (l : List Char) : stripList (stripList l) = stripList l := by
  have hdef : ∀ x : List Char,
      stripList x = List.rdropWhile isSpaceChar (x.dropWhile isSpaceChar) := fun _ => rfl
  have h1 := hdef l
  rw [h1, hdef]
  rw [rdropWhile_dropWhile_fix isSpaceChar (l.dropWhile isSpaceChar)
        (List.dropWhile_idempotent isSpaceChar l)]
  exact List.rdropWhile_idempotent isSpaceChar (l.dropWhile isSpaceChar)

theorem pyStrip_idem (s : String) : pyStrip (pyStrip s) = pyStrip s := by
  simp [pyStrip, stripList_idem]

/-- Claim C7 as amended: the listing extractor never emits a stub whose
title is empty after trimming or whose href is the empty string — the
title is trimmed before its emptiness check, but the href is checked
untrimmed, so a whitespace-only href passes. -/
theorem stub_title_trimmed_href_untrimmed_nonempty (tree : Node) (s : ArticleStub)
    (h : s ∈ parse_main_page tree) :
    s.title ≠ "" ∧ pyStrip s.title ≠ "" ∧ s.url ≠ "" := by
  rw [parse_main_page_eq_filterMap] at h
  obtain ⟨a, _, hs⟩ := List.mem_filterMap.mp h
  obtain ⟨ht, _, hne, hu⟩ := stubOf_char a s hs
  refine ⟨hne, ?_, hu⟩
  rw [ht, pyStrip_idem, ← ht]
  exact hne

/-- Claim C7 witness: the emitted stub of the concrete relative-href
listing has a title that survives trimming and a non-empty href. -/
theorem stub_nonempty_witness :
    ({ title := "T1", url := "https://habr.com/ru/1" } : ArticleStub).title ≠ "" ∧
    pyStrip ({ title := "T1", url := "https://habr.com/ru/1" } : ArticleStub).title ≠ "" ∧
    ({ title := "T1", url := "https://habr.com/ru/1" } : ArticleStub).url ≠ "" := by
  have hmem : ({ title := "T1", url := "https://habr.com/ru/1" } : ArticleStub)
      ∈ parse_main_page relTree := by decide
  exact stub_title_trimmed_href_untrimmed_nonempty relTree
    { title := "T1", url := "https://habr.com/ru/1" } hmem

/-- Claim C1: for every existing store and listing, the driver skips every
candidate whose URL is already known (never fetching it), fetches every
candidate whose URL is not, and the persisted store is the existing records
followed by the newly built records in candidate order (when nothing new
was built, the file is untouched and still holds exactly the existing
records). -/
theorem driver_dedup_and_append
    (jsonLoad : String → Except String (List ArticleRecord))
    (jsonDump : List ArticleRecord → String) (listing : Node)
    (fetch : String → Except String Node) (file0 : Option String) (limit : Int)
    (existing : List ArticleRecord) (urls : List String) (arts : List ArticleStub)
    (nr : List ArticleRecord) (r : MainResult)
    (h : load_existing_data file0 jsonLoad = .ok existing)
    (hurls : urls = existing.map ArticleRecord.url)
    (harts : arts = consideredArticles listing limit)
    (hnr : nr = arts.filterMap (candRecord fetch urls))
    (hr : r = main jsonLoad jsonDump listing fetch file0 limit) :
    (∀ a ∈ arts, a.url ∈ urls →
        Event.skipped a.url ∈ r.events ∧ Event.fetched a.url ∉ r.events) ∧
    (∀ a ∈ arts, a.url ∉ urls → Event.fetched a.url ∈ r.events) ∧
    newArticles fetch urls arts = nr ∧
    (nr ≠ [] → r.file = some (jsonDump (existing ++ nr))) ∧
    (nr = [] → r.file = file0 ∧
        load_existing_data r.file jsonLoad = .ok (existing ++ nr)) := by
  subst hurls harts hnr hr
  have hev := main_events_eq jsonLoad jsonDump listing fetch file0 limit existing h
  have hfl := main_file_eq jsonLoad jsonDump listing fetch file0 limit existing h
  have hsnd := processLoop_snd fetch (existing.map ArticleRecord.url)
    (consideredArticles listing limit)
  refine ⟨?_, ?_, ?_, ?_, ?_⟩
  · intro a ha hu
    constructor
    · rw [hev]
      exact List.mem_cons_of_mem _
        (List.mem_append_left _ (skipped_mem_processLoop fetch _ _ a ha hu))
    · rw [hev]
      intro hmem
      rcases List.mem_cons.mp hmem with heq | hmem2
      · cases heq
      · rcases List.mem_append.mp hmem2 with hm1 | hm2
        · exact fetched_not_mem_processLoop fetch _ _ a.url hu hm1
        · have hnot : Event.fetched a.url ∉
              (if (processLoop fetch (existing.map ArticleRecord.url)
                    (consideredArticles listing limit)).2 = []
               then ([] : List Event) else [Event.saved]) := by
            by_cases h2 : (processLoop fetch (existing.map ArticleRecord.url)
                (consideredArticles listing limit)).2 = [] <;> simp [h2]
          exact hnot hm2
  · intro a ha hu
    rw [hev]
    exact List.mem_cons_of_mem _
      (List.mem_append_left _ (fetched_mem_processLoop fetch _ _ a ha hu))
  · exact hsnd
  · intro hne
    rw [hfl, hsnd, if_neg hne]
  · intro hnil
    refine ⟨by rw [hfl, hsnd, if_pos hnil], ?_⟩
    rw [hfl, hsnd, if_pos hnil, hnil, List.append_nil]
    exact h

/-- Claim C1 witness: with an existing store holding URLs A and B and a
listing yielding stubs A, C, D under limit 3, the run skips A, fetches C
and D, and saves. -/
theorem driver_dedup_and_append_witness :
    Event.skipped "A" ∈
      (main loadStoreAB dumpStr listingACD fetchEmptyPage (some "db") 3).events ∧
    Event.fetched "A" ∉
      (main loadStoreAB dumpStr listingACD fetchEmptyPage (some "db") 3).events ∧
    Event.fetched "C" ∈
      (main loadStoreAB dumpStr listingACD fetchEmptyPage (some "db") 3).events ∧
    Event.fetched "D" ∈
      (main loadStoreAB dumpStr listingACD fetchEmptyPage (some "db") 3).events ∧
    (main loadStoreAB dumpStr listingACD fetchEmptyPage (some "db") 3).file
      = some "dump" := by
  have h := driver_dedup_and_append loadStoreAB dumpStr listingACD fetchEmptyPage
    (some "db") 3 [recA, recB] ([recA, recB].map ArticleRecord.url)
    (consideredArticles listingACD 3)
    ((consideredArticles listingACD 3).filterMap
      (candRecord fetchEmptyPage ([recA, recB].map ArticleRecord.url)))
    (main loadStoreAB dumpStr listingACD fetchEmptyPage (some "db") 3)
    rfl rfl rfl rfl rfl
  refine ⟨?_, ?_, ?_, ?_, ?_⟩
  · exact (h.1 ⟨"TA", "A"⟩ (by decide) (by decide)).1
  · exact (h.1 ⟨"TA", "A"⟩ (by decide) (by decide)).2
  · exact h.2.1 ⟨"TC", "C"⟩ (by decide) (by decide)
  · exact h.2.1 ⟨"TD", "D"⟩ (by decide) (by decide)
  · exact h.2.2.2.1 (by decide)

/-- Claim C2: when the new-articles buffer ends up empty, the driver does
not save — the store file keeps its prior contents, and no save event
occurs. -/
theorem no_save_when_buffer_empty
    (jsonLoad : String → Except String (List ArticleRecord))
    (jsonDump : List ArticleRecord → String) (listing : Node)
    (fetch : String → Except String Node) (file0 : Option String) (limit : Int)
    (existing : List ArticleRecord)
    (h : load_existing_data file0 jsonLoad = .ok existing)
    (hempty : newArticles fetch (existing.map ArticleRecord.url)
        (consideredArticles listing limit) = []) :
    (main jsonLoad jsonDump listing fetch file0 limit).file = file0 ∧
    Event.saved ∉ (main jsonLoad jsonDump listing fetch file0 limit).events := by
  have h2 : (processLoop fetch (existing.map ArticleRecord.url)
      (consideredArticles listing limit)).2 = [] := hempty
  constructor
  · rw [main_file_eq _ _ _ _ _ _ _ h, if_pos h2]
  · rw [main_events_eq _ _ _ _ _ _ _ h, if_pos h2]
    intro hmem
    rcases List.mem_cons.mp hmem with heq | hm
    · cases heq
    · rw [List.append_nil] at hm
      exact saved_not_mem_processLoop fetch _ _ hm

/-- Claim C2 witness: a run whose only candidate is already known leaves
the file at its prior contents and emits no save event. -/
theorem no_save_when_buffer_empty_witness :
    (main loadStoreA dumpStr listingA fetchEmptyPage (some "db") 1).file = some "db" ∧
    Event.saved ∉ (main loadStoreA dumpStr listingA fetchEmptyPage (some "db") 1).events :=
  no_save_when_buffer_empty loadStoreA dumpStr listingA fetchEmptyPage
    (some "db") 1 [recA] rfl rfl

/-- Claim C3: loading an absent store file yields the empty sequence, and
a malformed store file aborts the run with the parse error before any
network request — no listing fetch, no article fetch, file untouched. -/
theorem load_absent_empty_corrupt_aborts
    (jsonLoad : String → Except String (List ArticleRecord))
    (jsonDump : List ArticleRecord → String) (listing : Node)
    (fetch : String → Except String Node) (s e : String) (limit : Int)
    (h : jsonLoad s = .error e) :
    load_existing_data none jsonLoad = .ok [] ∧
    (main jsonLoad jsonDump listing fetch (some s) limit).err = some e ∧
    (main jsonLoad jsonDump listing fetch (some s) limit).events = [] ∧
    (∀ u, Event.fetched u ∉ (main jsonLoad jsonDump listing fetch (some s) limit).events) ∧
    Event.listingFetched ∉ (main jsonLoad jsonDump listing fetch (some s) limit).events ∧
    (main jsonLoad jsonDump listing fetch (some s) limit).file = some s := by
  have hl : load_existing_data (some s) jsonLoad = .error e := h
  refine ⟨rfl, ?_, ?_, ?_, ?_, ?_⟩ <;> simp [main, hl]

/-- Claim C3 witness: a concrete always-malformed load oracle aborts the
run with its error and an empty trace. -/
theorem load_absent_empty_corrupt_aborts_witness :
    load_existing_data none loadBad = .ok [] ∧
    (main loadBad dumpStr listingA fetchEmptyPage (some "x") 5).err = some "malformed" ∧
    (main loadBad dumpStr listingA fetchEmptyPage (some "x") 5).events = [] := by
  have h := load_absent_empty_corrupt_aborts loadBad dumpStr listingA fetchEmptyPage
    "x" "malformed" 5 rfl
  exact ⟨h.1, h.2.1, h.2.2.1⟩

theorem sleepCount_cons (e : Event) (l : List Event) :
    sleepCount (e :: l) = (if isSleepEvent e then 1 else 0) + sleepCount l := by
  by_cases he : isSleepEvent e <;>
    simp [sleepCount, List.filter_cons, he, Nat.add_comm]

theorem sleepCount_append (l1 l2 : List Event) :
    sleepCount (l1 ++ l2) = sleepCount l1 + sleepCount l2 := by
  simp [sleepCount, List.filter_append]

/-- Claim C8 counterexample: a run whose single considered candidate is
skipped as already known executes no delay at all — the skip path's
`continue` bypasses the sleep, so the delay does not follow every
processed candidate. -/
theorem skip_has_no_delay_counterexample :
    (main loadStoreA dumpStr listingA fetchEmptyPage (some "db") 1).events
      = [Event.listingFetched, Event.skipped "A"] ∧
    (consideredArticles listingA 1).length = 1 ∧
    sleepCount (main loadStoreA dumpStr listingA fetchEmptyPage (some "db") 1).events
      = 0 :=
  ⟨rfl, rfl, rfl⟩

/-- Claim C8 as amended: the fixed 1-second delay executes after every
candidate that reached the fetch attempt (successful or failed), and not
after candidates skipped as already known — the delay count equals the
number of considered candidates whose URL was not already in the store. -/
theorem delay_after_each_fetched_candidate
    (jsonLoad : String → Except String (List ArticleRecord))
    (jsonDump : List ArticleRecord → String) (listing : Node)
    (fetch : String → Except String Node) (file0 : Option String) (limit : Int)
    (existing : List ArticleRecord)
    (h : load_existing_data file0 jsonLoad = .ok existing) :
    sleepCount (main jsonLoad jsonDump listing fetch file0 limit).events
      = ((consideredArticles listing limit).filter
          (fun a => !(decide (a.url ∈ existing.map ArticleRecord.url)))).length := by
  rw [main_events_eq _ _ _ _ _ _ _ h, sleepCount_cons, sleepCount_append]
  have htail : sleepCount
      (if (processLoop fetch (existing.map ArticleRecord.url)
            (consideredArticles listing limit)).2 = []
       then ([] : List Event) else [Event.saved]) = 0 := by
    by_cases h2 : (processLoop fetch (existing.map ArticleRecord.url)
        (consideredArticles listing limit)).2 = [] <;>
      simp [h2, sleepCount, isSleepEvent]
  rw [htail, sleepCount_processLoop]
  simp [isSleepEvent]

/-- Claim C8 amended witness: in the all-known run no delay executes, and
the non-skipped candidate count is likewise zero. -/
theorem delay_after_each_fetched_candidate_witness :
    sleepCount (main loadStoreA dumpStr listingA fetchEmptyPage (some "db") 1).events
      = ((consideredArticles listingA 1).filter
          (fun a => !(decide (a.url ∈ [recA].map ArticleRecord.url)))).length :=
  delay_after_each_fetched_candidate loadStoreA dumpStr listingA fetchEmptyPage
    (some "db") 1 [recA] rfl

/-- Claim C9 counterexample: at the integer limit -1 (accepted by the CLI)
on a two-stub listing, the driver considers all but the last stub — which
is neither the first -1 stubs (there are none) nor the whole listing. -/
theorem negative_limit_counterexample :
    consideredArticles listingAB (-1)
        ≠ (parse_main_page listingAB).take (Int.toNat (-1)) ∧
    consideredArticles listingAB (-1) ≠ parse_main_page listingAB ∧
    consideredArticles listingAB (-1) = [{ title := "TA", url := "A" }] := by
  refine ⟨by decide, by decide, rfl⟩

/-- Claim C9 as amended: for every nonnegative integer limit N (the
default 5 included), the driver considers exactly the first N stubs of the
listing extractor's output, in listing order (all of them when fewer than
N exist); a negative limit instead follows Python slice semantics. -/
theorem nonneg_limit_takes_first_n (listing : Node) (N : Int) (h : 0 ≤ N) :
    consideredArticles listing N = (parse_main_page listing).take N.toNat := by
  simp [consideredArticles, pyTake, h]

/-- Claim C9 amended witness: the default limit 5 takes the first five
stubs. -/
theorem nonneg_limit_takes_first_n_witness :
    0 ≤ (5 : Int) ∧
    consideredArticles listingAB 5 = (parse_main_page listingAB).take (Int.toNat 5) :=
  ⟨by decide, nonneg_limit_takes_first_n listingAB 5 (by decide)⟩

end Habr
